import Mathlib

/-!
Verification development for the CodeGPT backend's log/code analysis
pipeline.  Python strings are modelled as `List Char`; Python functions
from `app/services` and `app/api/v1/endpoints` are translated as total
Lean functions.  Machinery that is not part of the repository (the Python
`re` module, `ast.parse`, the external generative model, the HTTP layer)
is either re-implemented at the semantics the code relies on (the three
fixed regular expressions) or abstracted as an explicit function
parameter (`ast` parsing, the model call).
-/

set_option maxRecDepth 4000

namespace CodeGPT

/-- Python strings are modelled as lists of characters. -/
abbrev Str := List Char

/-- Whitespace recognised by Python's `str.strip()` (ASCII range). -/
def pyIsWs (c : Char) : Bool :=
  c = ' ' || c = '\t' || c = '\n' || c = '\r' || c = '\x0b' || c = '\x0c'

/-- Python `str.strip()`: drop whitespace from both ends. -/
def pyStrip (s : Str) : Str :=
  ((s.dropWhile pyIsWs).reverse.dropWhile pyIsWs).reverse

/-- Python `s.split("\n")`: always returns at least one piece. -/
def splitLines : Str → List Str
  | [] => [[]]
  | c :: rest =>
    if c = '\n' then [] :: splitLines rest
    else
      match splitLines rest with
      | [] => [[c]]
      | l :: ls => (c :: l) :: ls

/-- Python `"\n".join(ls)`. -/
def joinLines (ls : List Str) : Str := List.intercalate ['\n'] ls

/-- Python substring containment `needle in hay`. -/
def hasSub (needle : Str) : Str → Bool
  | [] => needle.isEmpty
  | c :: rest => needle.isPrefixOf (c :: rest) || hasSub needle rest

/-- Python `str.upper()` modelled character-wise. -/
def pyUpper (s : Str) : Str := s.map Char.toUpper

/-- Python `str.lower()` modelled character-wise. -/
def pyLower (s : Str) : Str := s.map Char.toLower

/-!
## A small regular-expression engine

The repository uses `re` with three fixed patterns plus two auxiliary
searches.  Those patterns only need: character classes, literals,
concatenation, alternation, and greedy/lazy `+` over a single character
class.  The engine below implements exactly Python's backtracking order
(leftmost position, alternatives left to right, greedy `+` longest
first, lazy `+?` shortest first), so `matchLen` returns the same match
as Python's `re` on these patterns.
-/

/-- Regular expressions as used by the source's fixed pattern table. -/
inductive RE where
  | cls (p : Char → Bool)
  | lit (s : Str)
  | seq (a b : RE)
  | alt (a b : RE)
  | plusG (p : Char → Bool)
  | plusL (p : Char → Bool)

/-- Try consumed lengths `i, i-1, …, 1` (greedy order) for a `+` of a
character class whose maximal run has length at least `i`. -/
def tryDesc (k : Str → Option Str) (s : Str) : Nat → Option Str
  | 0 => none
  | j + 1 => (k (s.drop (j + 1))).orElse (fun _ => tryDesc k s j)

/-- Try consumed lengths `i, i+1, …` (lazy order), `fuel` attempts. -/
def tryAsc (k : Str → Option Str) (s : Str) : Nat → Nat → Option Str
  | _, 0 => none
  | i, fuel + 1 => (k (s.drop i)).orElse (fun _ => tryAsc k s (i + 1) fuel)

/-- Backtracking matcher in continuation style: `reRun r s k` attempts to
match `r` at the start of `s` and passes the remaining suffix to `k`,
exploring alternatives in Python's order. -/
def reRun : RE → Str → (Str → Option Str) → Option Str
  | .cls p, s, k =>
    match s with
    | [] => none
    | c :: rest => if p c then k rest else none
  | .lit l, s, k => if l.isPrefixOf s then k (s.drop l.length) else none
  | .seq a b, s, k => reRun a s (fun r => reRun b r k)
  | .alt a b, s, k => (reRun a s k).orElse (fun _ => reRun b s k)
  | .plusG p, s, k => tryDesc k s (s.takeWhile p).length
  | .plusL p, s, k => tryAsc k s 1 (s.takeWhile p).length

/-- Length of the match of `re` at the start of `s`, if any. -/
def matchLen (re : RE) (s : Str) : Option Nat :=
  (reRun re s some).map (fun rest => s.length - rest.length)

/-- One scanning step of `re.finditer`: if a match of length `L` starts
here, record it and resume after it (advancing one character after an
empty match, as Python does); otherwise move one character right. -/
def finditStep (re : RE) (next : Str → Nat → List (Nat × Str))
    (s : Str) (pos : Nat) : List (Nat × Str) :=
  match matchLen re s with
  | some L => (pos, s.take L) :: next (s.drop (max L 1)) (pos + max L 1)
  | none =>
    match s with
    | [] => []
    | _ :: rest => next rest (pos + 1)

/-- Scanner behind `re.finditer`: record non-overlapping matches with
their starting positions. -/
def finditGo (re : RE) : Nat → Str → Nat → List (Nat × Str)
  | 0, _, _ => []
  | fuel + 1, s, pos => finditStep re (finditGo re fuel) s pos

/-- Python `re.finditer(pattern, s)` with start positions and matched
text (`group(0)`). -/
def finditer (re : RE) (s : Str) : List (Nat × Str) :=
  finditGo re (s.length + 1) s 0

/-- First match of `re` anywhere in `s` (Python `re.search`), returning
the matched text. -/
def searchGo (re : RE) : Nat → Str → Option Str
  | 0, _ => none
  | fuel + 1, s =>
    match matchLen re s with
    | some L => some (s.take L)
    | none =>
      match s with
      | [] => none
      | _ :: rest => searchGo re fuel rest

/-- Python `re.search(pattern, s)` returning `group(0)`. -/
def search (re : RE) (s : Str) : Option Str := searchGo re (s.length + 1) s

/-- Python `\d`. -/
def digitC (c : Char) : Bool := c.isDigit

/-- Python `\w` (ASCII scope: letters, digits, underscore). -/
def wordChar (c : Char) : Bool := c.isAlphanum || c = '_'

/-- Python `[\s\S]`: any character including newline. -/
def anyCharC (_ : Char) : Bool := true

/-- Python `.` (no DOTALL): any character except newline. -/
def notNlC (c : Char) : Bool := c ≠ '\n'

/-- The `python` entry of `LogService.ERROR_PATTERNS`:
`Traceback \(most recent call last\):[\s\S]+?\n\w+Error: .+` -/
def pythonRE : RE :=
  .seq (.lit "Traceback (most recent call last):".toList)
    (.seq (.plusL anyCharC)
      (.seq (.lit ['\n'])
        (.seq (.plusG wordChar)
          (.seq (.lit "Error: ".toList) (.plusG notNlC)))))

/-- The `javascript` entry of `LogService.ERROR_PATTERNS`:
`(?:TypeError|ReferenceError|SyntaxError):.+` -/
def javascriptRE : RE :=
  .seq (.alt (.lit "TypeError".toList)
         (.alt (.lit "ReferenceError".toList) (.lit "SyntaxError".toList)))
    (.seq (.lit [':']) (.plusG notNlC))

/-- The `api` entry of `LogService.ERROR_PATTERNS`:
`(?:4\d{2}|5\d{2}) (?:Error|NOT_FOUND|BAD_REQUEST):.+` -/
def apiRE : RE :=
  .seq (.alt (.seq (.lit ['4']) (.seq (.cls digitC) (.cls digitC)))
         (.seq (.lit ['5']) (.seq (.cls digitC) (.cls digitC))))
    (.seq (.lit [' '])
      (.seq (.alt (.lit "Error".toList)
              (.alt (.lit "NOT_FOUND".toList) (.lit "BAD_REQUEST".toList)))
        (.seq (.lit [':']) (.plusG notNlC))))

/-- The timestamp pattern of `LogService._parse_log_line`:
`\d{4}-\d{2}-\d{2} \d{2}:\d{2}:\d{2}` -/
def timestampRE : RE :=
  let d2 : RE := .seq (.cls digitC) (.cls digitC)
  .seq d2 (.seq d2
    (.seq (.lit ['-']) (.seq d2
      (.seq (.lit ['-']) (.seq d2
        (.seq (.lit [' ']) (.seq d2
          (.seq (.lit [':']) (.seq d2
            (.seq (.lit [':']) d2))))))))))

/-- The pattern of `LogService._extract_line_number`: `line (\d+)`. -/
def lineNumberRE : RE := .seq (.lit "line ".toList) (.plusG digitC)

/-- Python `int` of a string of decimal digits. -/
def natOfDigits (s : Str) : Nat :=
  s.foldl (fun a c => a * 10 + (c.toNat - 48)) 0

/-!
## `app/services/log_service.py`
-/

/-- `app.models.error_details.ErrorDetail` (pydantic model). -/
structure ErrorDetail where
  error_type : Str
  message : Str
  line_number : Option Nat
  suggestion : Str
deriving DecidableEq

/-- One element of the timeline built by `LogService._create_timeline`. -/
structure TimelineEvent where
  time : Str
  event : Str
  level : Str
deriving DecidableEq

/-- The summary dictionary built by `LogService._create_summary`.  The
Python float `error_rate` is modelled as a rational. -/
structure Summary where
  total_logs : Nat
  level_distribution : List (Str × Nat)
  error_rate : ℚ
deriving DecidableEq

/-- One parsed entry of `LogService._parse_log_line`. -/
structure LogEntry where
  timestamp : Option Str
  content : Str
  level : Str
deriving DecidableEq

/-- The dictionary returned by `LogService.analyze_logs`. -/
structure LogAnalysis where
  total_entries : Nat
  error_count : Nat
  errors : List ErrorDetail
  timeline : List TimelineEvent
  summary : Summary
deriving DecidableEq

/-- Comparison used by `sorted(timeline, key=lambda x: x["time"])`:
lexicographic order on the timestamp string. -/
def timeLe (a b : TimelineEvent) : Prop := a.time ≤ b.time

instance : DecidableRel timeLe := fun a b =>
  inferInstanceAs (Decidable (a.time ≤ b.time))

instance : IsTotal TimelineEvent timeLe := ⟨fun a b => le_total a.time b.time⟩

instance : IsTrans TimelineEvent timeLe := ⟨fun _ _ _ h h' => le_trans h h'⟩

namespace LogService

/-- `LogService.ERROR_PATTERNS`: the fixed ordered pattern table. -/
def ERROR_PATTERNS : List (Str × RE) :=
  [("python".toList, pythonRE),
   ("javascript".toList, javascriptRE),
   ("api".toList, apiRE)]

/-- `LogService._detect_log_level`. -/
def detect_log_level (line : Str) : Str :=
  let u := pyUpper line
  if hasSub "ERROR".toList u then "ERROR".toList
  else if hasSub "WARNING".toList u then "WARNING".toList
  else if hasSub "INFO".toList u then "INFO".toList
  else "UNKNOWN".toList

/-- `LogService._parse_log_line`. -/
def parse_log_line (line : Str) : LogEntry :=
  { timestamp := search timestampRE line
    content := pyStrip line
    level := detect_log_level line }

/-- `LogService.parse_logs`: one entry per non-blank line, in order. -/
def parse_logs (logs : Str) : List LogEntry :=
  ((splitLines logs).filter (fun l => ¬(pyStrip l).isEmpty)).map parse_log_line

/-- `LogService._extract_line_number`. -/
def extract_line_number (error_text : Str) : Option Nat :=
  (search lineNumberRE error_text).map (fun m => natOfDigits (m.drop 5))

/-- `LogService._generate_suggestion` (the `error_type` argument is
unused by the source as well). -/
def generate_suggestion (_error_type : Str) (error_text : Str) : Str :=
  if hasSub "ImportError".toList error_text then
    "Check if the required package is installed and accessible".toList
  else if hasSub "SyntaxError".toList error_text then
    "Review the code syntax at the indicated line".toList
  else if hasSub "TypeError".toList error_text then
    "Verify the data types of the variables being used".toList
  else "Review the error message and surrounding code context".toList

/-- Record built for one regex match inside `LogService.extract_errors`. -/
def mkDetail (error_type : Str) (error_text : Str) : ErrorDetail :=
  { error_type := error_type
    message := error_text
    line_number := extract_line_number error_text
    suggestion := generate_suggestion error_type error_text }

/-- `LogService.extract_errors`: iterate the pattern table in order and
emit one `ErrorDetail` per match of each pattern. -/
def extract_errors (logs : Str) : List ErrorDetail :=
  (ERROR_PATTERNS.map
    (fun p => (finditer p.2 logs).map (fun m => mkDetail p.1 m.2))).flatten

/-- `LogService._create_timeline`: entries with a timestamp, sorted by
the timestamp string (Python's `sorted` is stable; insertion sort is the
matching stable sort). -/
def create_timeline (parsed : List LogEntry) : List TimelineEvent :=
  List.insertionSort timeLe
    (parsed.filterMap (fun e =>
      e.timestamp.map (fun t => ⟨t, e.content, e.level⟩)))

/-- `LogService._create_summary`. -/
def create_summary (parsed : List LogEntry) : Summary :=
  let cnt : Str → Nat := fun lvl => (parsed.filter (fun e => e.level = lvl)).length
  { total_logs := parsed.length
    level_distribution :=
      [("ERROR".toList, cnt "ERROR".toList),
       ("WARNING".toList, cnt "WARNING".toList),
       ("INFO".toList, cnt "INFO".toList),
       ("UNKNOWN".toList, cnt "UNKNOWN".toList)]
    error_rate :=
      if parsed.length = 0 then 0
      else (cnt "ERROR".toList : ℚ) / (parsed.length : ℚ) }

/-- `LogService.analyze_logs` (pure: the Python `try`/`except` only
re-wraps an exception's message and none of the steps below can raise). -/
def analyze_logs (logs : Str) : LogAnalysis :=
  let parsed := parse_logs logs
  let errors := extract_errors logs
  { total_entries := parsed.length
    error_count := errors.length
    errors := errors
    timeline := create_timeline parsed
    summary := create_summary parsed }

end LogService

/-!
## `app/services/ai_service.py`
-/

/-- One extracted code snippet (`{"code": ..., "language": ...}`). -/
structure Snippet where
  code : Str
  language : Str
deriving DecidableEq

/-- `app.models.schemas.AIResponse` as populated by
`AIService._parse_ai_response`. -/
structure AIResponse where
  content : Str
  suggestions : List Str
  code_snippets : List Snippet
  chat_context : Option Str
deriving DecidableEq

/-- The fence delimiter checked by `line.startswith("```")`. -/
def fenceMark : Str := "```".toList

namespace AIService

/-- The `suggestion_keywords` list of `AIService._extract_suggestions`. -/
def suggestion_keywords : List Str :=
  ["suggest".toList, "recommend".toList, "consider".toList,
   "could".toList, "should".toList, "try".toList]

/-- The bullet-marker tuple of `line.startswith(("â€¢", "-", "*"))`: the
first entry is the literal three-character sequence U+00E2 U+20AC U+00A2
appearing in the source. -/
def bulletMarkers : List Str :=
  ["â€¢".toList, "-".toList, "*".toList]

/-- The body of the per-line loop of `AIService._extract_suggestions`:
the suggestion appended for a given line, if any. -/
def suggestLine (line : Str) : Option Str :=
  let l := pyStrip line
  if l.isEmpty then none
  else if (l.headD ' ').isDigit && decide (l.length > 2) && (l.drop 1).headD ' ' = '.' then
    some (pyStrip (l.drop 2))
  else if bulletMarkers.any (fun m => m.isPrefixOf l) then
    some (pyStrip (l.drop 1))
  else if suggestion_keywords.any (fun kw => hasSub kw (pyLower l)) then
    some l
  else none

/-- `AIService._extract_suggestions`: the source's accumulator loop over
the lines of the reply. -/
def extract_suggestions (content : Str) : List Str :=
  (splitLines content).foldl
    (fun acc line =>
      match suggestLine line with
      | some s => acc ++ [s]
      | none => acc) []

/-- State of the fence scan in `AIService._extract_code_snippets`:
`(snippets, current_snippet, current_language, in_code_block)`. -/
abbrev SnipState := List Snippet × List Str × Option Str × Bool

/-- One iteration of the loop of `AIService._extract_code_snippets`. -/
def snipStep (st : SnipState) (line : Str) : SnipState :=
  let (sn, cur, lang, inB) := st
  if fenceMark.isPrefixOf line then
    if inB then
      (if cur.isEmpty then sn
       else sn ++ [⟨joinLines cur, lang.getD "text".toList⟩], [], none, false)
    else
      let spec := pyStrip (line.drop 3)
      (sn, cur, if spec.isEmpty then lang else some (pyLower spec), true)
  else if inB then (sn, cur ++ [line], lang, inB)
  else st

/-- `AIService._extract_code_snippets`: fence scan plus the final flush
of an unterminated block. -/
def extract_code_snippets (content : Str) : List Snippet :=
  let st := (splitLines content).foldl snipStep ([], [], none, false)
  if st.2.1.isEmpty then st.1
  else st.1 ++ [⟨joinLines st.2.1, st.2.2.1.getD "text".toList⟩]

/-- The keyword list of `AIService._extract_chat_context`. -/
def chat_keywords : List Str :=
  ["important".toList, "key".toList, "critical".toList,
   "note".toList, "recommendation".toList]

/-- `AIService._extract_chat_context`. -/
def extract_chat_context (content : Str) : Option Str :=
  let pts := (splitLines content).filterMap (fun line =>
    if chat_keywords.any (fun kw => hasSub kw (pyLower line)) then
      some (pyStrip line)
    else none)
  if pts.isEmpty then none else some (joinLines pts)

/-- `AIService._parse_ai_response` applied to the model's reply text. -/
def parse_ai_response (content : Str) : AIResponse :=
  { content := content
    suggestions := extract_suggestions content
    code_snippets := extract_code_snippets content
    chat_context := extract_chat_context content }

/-- `AIService._build_code_analysis_prompt` (whitespace of the template
is abridged; its exact text is not load-bearing for any claim). -/
def build_code_analysis_prompt (code : Str) (context : Option Str)
    (user_prompt : Option Str) : Str :=
  "You are an expert code analyzer focusing on API debugging and optimization.\nAnalyze the following code:\n```\n".toList
  ++ code ++ "\n```\n".toList
  ++ (match context with
      | some c => "Context: ".toList ++ c
      | none => [])
  ++ "\nDefault Analysis Tasks:\n1. Code structure insights\n2. Potential improvements\n3. Best practices recommendations\n4. Specific code quality suggestions\n".toList
  ++ (match user_prompt with
      | some up =>
        "\n\nUser's Specific Request:\n".toList ++ up
        ++ "\n\nPlease address the user's specific request while also considering the default analysis tasks where relevant.".toList
      | none => [])

/-- `AIService._build_log_analysis_prompt` (same abridgement note as
above). -/
def build_log_analysis_prompt (logs : Str) (context : Option Str)
    (user_prompt : Option Str) : Str :=
  "You are an expert in debugging API logs and identifying issues.\nAnalyze the following logs:\n```\n".toList
  ++ logs ++ "\n```\n".toList
  ++ (match context with
      | some c => "Context: ".toList ++ c
      | none => [])
  ++ "\nDefault Analysis Tasks:\n1. Potential root causes\n2. Specific debugging steps\n3. Recommended fixes\n4. Best practices to prevent similar issues\n5. Provide updated code to address the issue\n".toList
  ++ (match user_prompt with
      | some up =>
        "\n\nUser's Specific Request:\n".toList ++ up
        ++ "\n\nPlease address the user's specific request while also considering the default analysis tasks where relevant.".toList
      | none => [])

/-- The external model call `generate_content_async` followed by
`response.text`: an opaque function from prompt to either raised
exception text or reply text. -/
abbrev Model := Str → Except Str Str

/-- `AIService.analyze_logs` for string input and already-rendered
context: build the prompt, call the model, post-process; a raised model
exception becomes `HTTPException(status_code=500, detail=str(e))`. -/
def analyze_logs (model : Model) (logs : Str) (context : Option Str)
    (user_prompt : Option Str) : Except (Nat × Str) AIResponse :=
  match model (build_log_analysis_prompt logs context user_prompt) with
  | .error e => .error (500, e)
  | .ok text => .ok (parse_ai_response text)

/-- `AIService.analyze_code`: same shape as `analyze_logs`. -/
def analyze_code (model : Model) (code : Str) (context : Option Str)
    (user_prompt : Option Str) : Except (Nat × Str) AIResponse :=
  match model (build_code_analysis_prompt code context user_prompt) with
  | .error e => .error (500, e)
  | .ok text => .ok (parse_ai_response text)

end AIService

/-!
## `app/services/code_service.py`

`ast.parse` / `ast.unparse` are the Python standard library, not part of
this repository; following §4.4/§4.5 of the spec, the syntax tree is
modelled as a node datatype carrying exactly the fields
`analyze_structure` reads, and the unparsed import statements collected
by `_optimize_imports` are abstracted as a `walk` oracle parameter.
-/

/-- Modelled from the spec: the shape of the Python `ast` nodes that
`CodeService.analyze_structure` inspects (`ast.Import` with its alias
names, `ast.ImportFrom` with optional module and alias names,
`ast.FunctionDef` with its positional-argument count and line number,
`ast.ClassDef` with its line number and body, any other node with its
children). -/
inductive PyNode where
  | Module (body : List PyNode)
  | Import (names : List Str)
  | ImportFrom (module : Option Str) (names : List Str)
  | FunctionDef (name : Str) (argCount : Nat) (lineno : Nat) (body : List PyNode)
  | ClassDef (name : Str) (lineno : Nat) (body : List PyNode)
  | Other (children : List PyNode)

/-- Direct children of a node, as `ast.iter_child_nodes` exposes them to
`ast.walk` (alias children of import nodes carry no further structure). -/
def pyChildren : PyNode → List PyNode
  | .Module b => b
  | .FunctionDef _ _ _ b => b
  | .ClassDef _ _ b => b
  | .Other c => c
  | _ => []

mutual

/-- Number of nodes of a tree (fuel for the breadth-first walk). -/
def nodeCount : PyNode → Nat
  | .Module b => 1 + nodesCount b
  | .Import _ => 1
  | .ImportFrom _ _ => 1
  | .FunctionDef _ _ _ b => 1 + nodesCount b
  | .ClassDef _ _ b => 1 + nodesCount b
  | .Other c => 1 + nodesCount c

/-- Total node count of a forest. -/
def nodesCount : List PyNode → Nat
  | [] => 0
  | n :: ns => nodeCount n + nodesCount ns

end

/-- Breadth-first traversal queue of `ast.walk`; the fuel bounds the
number of dequeues, and the node count of the root always suffices. -/
def walkGo : Nat → List PyNode → List PyNode
  | 0, _ => []
  | _, [] => []
  | fuel + 1, n :: rest => n :: walkGo fuel (rest ++ pyChildren n)

/-- `ast.walk(tree)`: the tree's nodes in breadth-first order. -/
def walkTree (t : PyNode) : List PyNode := walkGo (nodeCount t) [t]

/-- A `{"name": ..., "args": ..., "line_number": ...}` record of
`CodeService.analyze_structure`. -/
structure FuncInfo where
  name : Str
  args : Nat
  line_number : Nat
deriving DecidableEq

/-- A `{"name": ..., "methods": ..., "line_number": ...}` record of
`CodeService.analyze_structure`. -/
structure ClassInfo where
  name : Str
  methods : Nat
  line_number : Nat
deriving DecidableEq

/-- The analysis dictionary of `CodeService.analyze_structure`. -/
structure CodeStructure where
  imports : List Str
  functions : List FuncInfo
  classes : List ClassInfo
  complexity : Nat
deriving DecidableEq

namespace CodeService

/-- Whether a node is an `ast.FunctionDef` (the membership test used for
the method count of a class body). -/
def isFunctionDef : PyNode → Bool
  | .FunctionDef _ _ _ _ => true
  | _ => false

/-- Python's f-string rendering of `node.module`, which is `None` for a
relative import and then prints as the text `None`. -/
def renderModule : Option Str → Str
  | some m => m
  | none => "None".toList

/-- The `isinstance` dispatch inside the loop of
`CodeService.analyze_structure`. -/
def structStep (acc : CodeStructure) : PyNode → CodeStructure
  | .Import names => { acc with imports := acc.imports ++ names }
  | .ImportFrom m names =>
    { acc with imports :=
        acc.imports ++ [renderModule m ++ '.' :: names.headD []] }
  | .FunctionDef n a l _ =>
    { acc with functions := acc.functions ++ [⟨n, a, l⟩] }
  | .ClassDef n l b =>
    { acc with classes :=
        acc.classes ++ [⟨n, (b.filter isFunctionDef).length, l⟩] }
  | _ => acc

/-- `CodeService.analyze_structure`: walk every node once, collecting
imports, functions and classes; `complexity` stays `0`. -/
def analyze_structure (tree : PyNode) : CodeStructure :=
  (walkTree tree).foldl structStep ⟨[], [], [], 0⟩

/-- Python's `startswith(("import ", "from "))` on a stripped line. -/
def startsWithImport (l : Str) : Bool :=
  "import ".toList.isPrefixOf l || "from ".toList.isPrefixOf l

/-- Python `str` comparison: lexicographic order on code points. -/
def strLe (a b : Str) : Prop := a ≤ b

instance : DecidableRel strLe := fun a b =>
  inferInstanceAs (Decidable (a ≤ b))

instance : IsAntisymm Str strLe := ⟨fun _ _ h h' => le_antisymm h h'⟩

instance : IsTotal Str strLe := ⟨fun a b => le_total a b⟩

instance : IsTrans Str strLe := ⟨fun _ _ _ h h' => le_trans h h'⟩

/-- `sorted(set(imports))`: distinct canonical import statements in
lexicographic order. -/
def sortDedup (xs : List Str) : List Str :=
  List.insertionSort strLe xs.dedup

/-- `CodeService._optimize_imports`, with the composite
`ast.parse` / `ast.walk` / `ast.unparse` step abstracted as the oracle
`walk`, which returns the canonical textual form of every import
statement of its argument (in walk order, duplicates included). -/
def optimize_imports (walk : Str → List Str) (code : Str) : Str :=
  let imports := sortDedup (walk code)
  let code_without_imports :=
    (splitLines code).filter (fun l => ¬startsWithImport (pyStrip l))
  joinLines (imports ++ [[]] ++ code_without_imports)

end CodeService

/-!
## `app/api/v1/endpoints/debugging.py` and
## `app/api/v1/endpoints/code_analysis.py`

The endpoints are modelled after input resolution (file-path logs are
already read) and with two abstracted collaborators: the pre-processing
call (which in Python may raise) and the external model.  FastAPI's
`HTTPException` subclasses `Exception`, so a raise of the 500
"empty response" error inside the inner `try` is caught by the blanket
`except Exception` fallback handler; the embeddings below reproduce that
control flow exactly.
-/

namespace Debugging

/-- `debug_logs` of `app/api/v1/endpoints/debugging.py`.
`runPre` models the `log_service.analyze_logs(logs)` call (in Lean the
service is pure, but the Python call can raise, hence `Except`);
`render` models the construction of the `enhanced_context` dictionary
and its string conversion inside `AIService.analyze_logs`.  Errors are
`(status_code, detail)` of the `HTTPException` surfaced to the caller. -/
def debug_logs (runPre : Str → Except Str LogAnalysis)
    (render : Option Str → LogAnalysis → Str) (model : AIService.Model)
    (logs : Str) (context : Option Str) : Except (Nat × Str) AIResponse :=
  if (pyStrip logs).isEmpty then
    .error (400, "No logs provided for analysis".toList)
  else
    let inner : Except Str AIResponse :=
      match runPre logs with
      | .error e => .error e
      | .ok la =>
        match AIService.analyze_logs model logs (some (render context la)) none with
        | .error p => .error p.2
        | .ok resp =>
          if resp.content.isEmpty then
            .error "AI service returned empty response".toList
          else .ok resp
    match inner with
    | .ok resp => .ok resp
    | .error _ => AIService.analyze_logs model logs context none

end Debugging

namespace CodeAnalysis

/-- `analyze_code` of `app/api/v1/endpoints/code_analysis.py`.
`runPre` models the whole code-analysis sub-pipeline (parse, structure
analysis, both refactor passes, `enhanced_context` construction),
producing the rendered enhanced context or raising. -/
def analyze_code (runPre : Str → Except Str Str) (model : AIService.Model)
    (code : Str) (context : Option Str) (user_prompt : Option Str) :
    Except (Nat × Str) AIResponse :=
  if (pyStrip code).isEmpty then
    .error (400, "No code provided for analysis".toList)
  else
    let inner : Except Str AIResponse :=
      match runPre code with
      | .error e => .error e
      | .ok ec =>
        match AIService.analyze_code model code (some ec) user_prompt with
        | .error p => .error p.2
        | .ok resp =>
          if resp.content.isEmpty then
            .error "AI service returned empty response".toList
          else .ok resp
    match inner with
    | .ok resp => .ok resp
    | .error _ => AIService.analyze_code model code context user_prompt

end CodeAnalysis

/-!
## Helper lemmas
-/

/-- Boolean check that two lists of strings have the same elements
(`set(a) == set(b)`). -/
def listSetEq (a b : List Str) : Bool :=
  a.all (fun x => decide (x ∈ b)) && b.all (fun x => decide (x ∈ a))

theorem listSetEq_mem_iff {a b : List Str} (h : listSetEq a b = true) :
    ∀ x, x ∈ a ↔ x ∈ b := by
  rw [listSetEq, Bool.and_eq_true, List.all_eq_true, List.all_eq_true] at h
  intro x
  constructor
  · intro hx; exact of_decide_eq_true (h.1 x hx)
  · intro hx; exact of_decide_eq_true (h.2 x hx)

theorem sortDedup_congr {a b : List Str} (h : ∀ x, x ∈ a ↔ x ∈ b) :
    CodeService.sortDedup a = CodeService.sortDedup b := by
  have hperm : a.dedup.Perm b.dedup := by
    rw [List.perm_ext_iff_of_nodup (List.nodup_dedup a) (List.nodup_dedup b)]
    intro x
    rw [List.mem_dedup, List.mem_dedup]
    exact h x
  refine List.eq_of_perm_of_sorted (r := CodeService.strLe) ?_ ?_ ?_
  · exact ((List.perm_insertionSort _ _).trans hperm).trans
      (List.perm_insertionSort _ _).symm
  · exact List.sorted_insertionSort _ _
  · exact List.sorted_insertionSort _ _

/-!
## Claim theorems
-/

/-- Claim C4: `optimize_imports` is idempotent on the import block.  The
side condition that the first run's output is again parseable — and that
re-parsing it finds the same import statements (the emitted block plus
the imports that survive the line filter, all of which were already
collected from the original code) — is expressed as the hypothesis that
the `walk` oracle returns the same set of canonical import statements on
the output as on the input.  Under it, the import block emitted by the
second run equals the block emitted by the first, and the second run's
output is that block followed by a blank line and the filtered body. -/
theorem optimize_imports_import_block_fixed_point
    (walk : Str → List Str) (code : Str)
    (h : listSetEq (walk (CodeService.optimize_imports walk code))
          (walk code) = true) :
    CodeService.sortDedup (walk (CodeService.optimize_imports walk code)) =
      CodeService.sortDedup (walk code) ∧
    CodeService.optimize_imports walk (CodeService.optimize_imports walk code) =
      joinLines (CodeService.sortDedup (walk code) ++ [[]] ++
        (splitLines (CodeService.optimize_imports walk code)).filter
          (fun l => ¬CodeService.startsWithImport (pyStrip l))) := by
  have h1 := sortDedup_congr (listSetEq_mem_iff h)
  refine ⟨h1, ?_⟩
  rw [CodeService.optimize_imports, h1]

/-- A concrete `walk` oracle for the witness below: its import
statements are the lines beginning with `import `. -/
def witnessWalk : Str → List Str := fun c =>
  (splitLines c).filter (fun l => "import ".toList.isPrefixOf (pyStrip l))

/-- Concrete input code for the idempotence witness. -/
def witnessCode : Str := "import b\nimport a\nimport b\nx = 1".toList

theorem optimize_imports_import_block_fixed_point_witness :
    listSetEq (witnessWalk (CodeService.optimize_imports witnessWalk witnessCode))
      (witnessWalk witnessCode) = true ∧
    CodeService.sortDedup
        (witnessWalk (CodeService.optimize_imports witnessWalk witnessCode)) =
      CodeService.sortDedup (witnessWalk witnessCode) :=
  ⟨by decide,
   (optimize_imports_import_block_fixed_point witnessWalk witnessCode (by decide)).1⟩

/-- Case-insensitive substring containment, the spec's reading of the
source's `"ERROR" in line.upper()` checks. -/
def containsCI (needle line : Str) : Bool :=
  hasSub (pyUpper needle) (pyUpper line)

/-- Claim C5: the derived log level is `ERROR` exactly when the line
contains `"ERROR"` case-insensitively; otherwise `WARNING`/`INFO` by the
same test; otherwise `UNKNOWN` — first match wins in that fixed priority
order. -/
theorem detect_log_level_priority_order (line : Str) :
    (LogService.detect_log_level line = "ERROR".toList ↔
      containsCI "ERROR".toList line = true) ∧
    (LogService.detect_log_level line = "WARNING".toList ↔
      (containsCI "ERROR".toList line = false ∧
       containsCI "WARNING".toList line = true)) ∧
    (LogService.detect_log_level line = "INFO".toList ↔
      (containsCI "ERROR".toList line = false ∧
       containsCI "WARNING".toList line = false ∧
       containsCI "INFO".toList line = true)) ∧
    (LogService.detect_log_level line = "UNKNOWN".toList ↔
      (containsCI "ERROR".toList line = false ∧
       containsCI "WARNING".toList line = false ∧
       containsCI "INFO".toList line = false)) := by
  have hE : pyUpper ['E','R','R','O','R'] = ['E','R','R','O','R'] := rfl
  have hW : pyUpper ['W','A','R','N','I','N','G'] = ['W','A','R','N','I','N','G'] := rfl
  have hI : pyUpper ['I','N','F','O'] = ['I','N','F','O'] := rfl
  simp only [LogService.detect_log_level, containsCI]
  split_ifs with h1 h2 h3 <;> simp_all

theorem finditGo_lb_and_pairwise (re : RE) :
    ∀ (fuel : Nat) (s : Str) (pos : Nat),
      (∀ q ∈ (finditGo re fuel s pos).map Prod.fst, pos ≤ q) ∧
      List.Pairwise (· < ·) ((finditGo re fuel s pos).map Prod.fst) := by
  intro fuel
  induction fuel with
  | zero => intro s pos; simp [finditGo]
  | succ f ih =>
    intro s pos
    rw [finditGo, finditStep.eq_def]
    split
    · rename_i L hm
      obtain ⟨ihLB, ihPW⟩ := ih (s.drop (max L 1)) (pos + max L 1)
      refine ⟨?_, ?_⟩
      · intro q hq
        simp only [List.map_cons, List.mem_cons] at hq
        rcases hq with h | h
        · omega
        · have := ihLB q h; omega
      · simp only [List.map_cons, List.pairwise_cons]
        refine ⟨fun q hq => ?_, ihPW⟩
        have := ihLB q hq
        have h1 : 1 ≤ max L 1 := le_max_right L 1
        omega
    · split
      · simp
      · exact ⟨fun q hq => by have := (ih _ (pos + 1)).1 q hq; omega,
          (ih _ (pos + 1)).2⟩

/-- The concrete log text showing that the combined output of
`extract_errors` is not globally sorted by match position: the
javascript-pattern match starts at position 0, before the python-pattern
match at position 13, yet the python record is emitted first. -/
def crossLogs : Str :=
  "TypeError: x\nTraceback (most recent call last):\n  f\nValueError: y".toList

/-- Claim C6: `extract_errors` emits all python-pattern records first,
then all javascript-pattern records, then all api-pattern records; each
pattern's matches appear at strictly increasing source positions
(leftmost first); and the combined output is not globally sorted by
position across pattern types, witnessed by `crossLogs`. -/
theorem extract_errors_emitted_in_pattern_table_order (logs : Str) :
    (LogService.extract_errors logs =
      (finditer pythonRE logs).map
        (fun m => LogService.mkDetail "python".toList m.2) ++
      ((finditer javascriptRE logs).map
        (fun m => LogService.mkDetail "javascript".toList m.2) ++
       (finditer apiRE logs).map
        (fun m => LogService.mkDetail "api".toList m.2))) ∧
    List.Pairwise (· < ·) ((finditer pythonRE logs).map Prod.fst) ∧
    List.Pairwise (· < ·) ((finditer javascriptRE logs).map Prod.fst) ∧
    List.Pairwise (· < ·) ((finditer apiRE logs).map Prod.fst) ∧
    ((finditer javascriptRE crossLogs).map Prod.fst = [0] ∧
     (finditer pythonRE crossLogs).map Prod.fst = [13] ∧
     (LogService.extract_errors crossLogs).map ErrorDetail.error_type =
       ["python".toList, "javascript".toList]) := by
  refine ⟨?_, (finditGo_lb_and_pairwise _ _ _ _).2,
    (finditGo_lb_and_pairwise _ _ _ _).2,
    (finditGo_lb_and_pairwise _ _ _ _).2, by decide⟩
  simp [LogService.extract_errors, LogService.ERROR_PATTERNS]

/-- Splitting the length of a list of parsed entries by presence of a
timestamp. -/
theorem length_split_by_timestamp (l : List LogEntry) :
    l.length = (l.filter (fun e => e.timestamp.isSome)).length +
      (l.filter (fun e => e.timestamp.isNone)).length := by
  induction l with
  | nil => rfl
  | cons e t ih =>
    cases h : e.timestamp <;>
      simp [List.filter_cons, h, ih] <;> omega

/-- Claim C7: the timeline of `analyze_logs` is sorted by timestamp
string in non-decreasing order, consists exactly of the parsed entries
whose timestamp is present, and entries with a missing timestamp are
still counted in `total_entries`. -/
theorem timeline_sorted_and_null_timestamps_counted (logs : Str) :
    List.Sorted timeLe (LogService.analyze_logs logs).timeline ∧
    (LogService.analyze_logs logs).timeline.Perm
      ((LogService.parse_logs logs).filterMap (fun e =>
        e.timestamp.map (fun t => ⟨t, e.content, e.level⟩))) ∧
    (LogService.analyze_logs logs).total_entries =
      ((LogService.parse_logs logs).filter
        (fun e => e.timestamp.isSome)).length +
      ((LogService.parse_logs logs).filter
        (fun e => e.timestamp.isNone)).length := by
  refine ⟨?_, ?_, ?_⟩
  · exact List.sorted_insertionSort timeLe _
  · exact List.perm_insertionSort timeLe _
  · exact length_split_by_timestamp _

/-- Claim C3: if the log text contains exactly one match of the python
traceback pattern and no match of the javascript or api patterns
("exactly one Python traceback block and no other error-shaped text"),
then `extract_errors` returns exactly one record, of `error_type`
`"python"`. -/
theorem extract_errors_single_python_traceback (logs : Str)
    (hp : (finditer pythonRE logs).length = 1)
    (hj : (finditer javascriptRE logs).length = 0)
    (ha : (finditer apiRE logs).length = 0) :
    ∃ d, LogService.extract_errors logs = [d] ∧
      d.error_type = "python".toList := by
  obtain ⟨m, hm⟩ := List.length_eq_one.mp hp
  have hj0 : finditer javascriptRE logs = [] := List.length_eq_zero.mp hj
  have ha0 : finditer apiRE logs = [] := List.length_eq_zero.mp ha
  refine ⟨LogService.mkDetail "python".toList m.2, ?_, rfl⟩
  simp [LogService.extract_errors, LogService.ERROR_PATTERNS, hm, hj0, ha0]

/-- A log text holding exactly one Python traceback and nothing else
error-shaped. -/
def tracebackLogs : Str :=
  "2024-01-01 10:00:00 INFO started\nTraceback (most recent call last):\n  File \"app.py\", line 3, in f\nValueError: boom".toList

theorem extract_errors_single_python_traceback_witness :
    (finditer pythonRE tracebackLogs).length = 1 ∧
    (finditer javascriptRE tracebackLogs).length = 0 ∧
    (finditer apiRE tracebackLogs).length = 0 ∧
    (∃ d, LogService.extract_errors tracebackLogs = [d] ∧
      d.error_type = "python".toList) :=
  ⟨by decide, by decide, by decide,
   extract_errors_single_python_traceback tracebackLogs
     (by decide) (by decide) (by decide)⟩

/-- Claim C2: for a non-blank log text, if the pre-processing pipeline
raises, `debug_logs` still returns the `AIResponse` of the fallback
model call, which is built from the raw user context only (assuming that
fallback call succeeds); no pre-processing exception reaches the
caller. -/
theorem debug_logs_falls_back_on_preprocessing_error
    (runPre : Str → Except Str LogAnalysis)
    (render : Option Str → LogAnalysis → Str) (model : AIService.Model)
    (logs : Str) (context : Option Str) (e : Str) (r : AIResponse)
    (hne : (pyStrip logs).isEmpty = false)
    (hpre : runPre logs = .error e)
    (hmodel : AIService.analyze_logs model logs context none = .ok r) :
    Debugging.debug_logs runPre render model logs context = .ok r := by
  simp [Debugging.debug_logs, hne, hpre, hmodel]

/-- A pre-processing stage that always raises. -/
def failingPre : Str → Except Str LogAnalysis :=
  fun _ => .error "LogService analysis failed: boom".toList

/-- A model that always succeeds with the reply `"fine"`. -/
def fineModel : AIService.Model := fun _ => .ok "fine".toList

theorem debug_logs_falls_back_on_preprocessing_error_witness :
    (pyStrip "some logs".toList).isEmpty = false ∧
    failingPre "some logs".toList =
      .error "LogService analysis failed: boom".toList ∧
    AIService.analyze_logs fineModel "some logs".toList none none =
      .ok (AIService.parse_ai_response "fine".toList) ∧
    Debugging.debug_logs failingPre (fun _ _ => []) fineModel
        "some logs".toList none =
      .ok (AIService.parse_ai_response "fine".toList) :=
  ⟨by decide, rfl, rfl,
   debug_logs_falls_back_on_preprocessing_error failingPre (fun _ _ => [])
     fineModel "some logs".toList none _ _ (by decide) rfl rfl⟩

/-- A model call that succeeds but returns empty content on every
prompt. -/
def emptyReplyModel : AIService.Model := fun _ => .ok []

/-- The `AIResponse` that post-processing builds from an empty reply. -/
def emptyAIResponse : AIResponse :=
  { content := [], suggestions := [], code_snippets := [], chat_context := none }

/-- Claim C1 (refuted; the code contradicts its own
`raise HTTPException(500, "AI service returned empty response")`): when
the model call succeeds but returns empty content, both endpoints do NOT
fail — the 500 empty-response `HTTPException` raised on the enriched
path is caught by the blanket `except Exception` fallback handler
(FastAPI's `HTTPException` subclasses `Exception`), the fallback model
call is made, and its response is returned to the caller with no
empty-content check, so an `AIResponse` with empty content is returned
with HTTP success. -/
theorem endpoints_return_empty_reply_instead_of_failing :
    Debugging.debug_logs (fun l => .ok (LogService.analyze_logs l))
        (fun _ _ => []) emptyReplyModel
        "2024-01-01 10:00:00 INFO started".toList none =
      .ok emptyAIResponse ∧
    CodeAnalysis.analyze_code (fun _ => .ok []) emptyReplyModel
        "import os".toList none none =
      .ok emptyAIResponse := by
  constructor <;> rfl

/-- Modelled from the spec: the syntax tree `ast.parse` produces for the
code `"import os\nimport sys\ndef f(a,b): pass"` — two plain import
statements and one function definition with two positional parameters on
line 3, whose body holds the `pass` statement. -/
def exampleTree : PyNode :=
  .Module [.Import ["os".toList], .Import ["sys".toList],
           .FunctionDef "f".toList 2 3 [.Other []]]

/-- Claim C9: structure analysis of
`"import os\nimport sys\ndef f(a,b): pass"` yields
`imports = ["os", "sys"]` and exactly one function, named `f`, with
parameter count 2. -/
theorem analyze_structure_concrete_example :
    (CodeService.analyze_structure exampleTree).imports =
      ["os".toList, "sys".toList] ∧
    (CodeService.analyze_structure exampleTree).functions.map
      (fun f => (f.name, f.args)) = [("f".toList, 2)] := by
  constructor <;> rfl

/-- The per-line suggestion rule exactly as claim C8 states it: numeric
rule whenever a digit is followed by `.`, bullet rule for `-`, `*` or
the bullet glyph with the marker stripped, keyword rule recording the
line. -/
def claimSuggestLine (line : Str) : Option Str :=
  let l := pyStrip line
  if l.length = 0 then none
  else if (l.headD ' ').isDigit ∧ (l.drop 1).headD ' ' = '.' then
    some (pyStrip (l.drop 2))
  else if l.headD ' ' = '-' ∨ l.headD ' ' = '*' ∨ l.headD ' ' = '•' then
    some (pyStrip (l.drop 1))
  else if ∃ kw ∈ AIService.suggestion_keywords, hasSub kw (pyLower l) = true then
    some l
  else none

/-- Counterexample to claim C8 as stated: the line `"1."` starts with a
digit followed by `.`, so the claim records the empty remainder, but the
source additionally requires `len(line) > 2`, so it records nothing. -/
theorem extract_suggestions_claim_counterexample :
    AIService.extract_suggestions "1.".toList ≠
      (splitLines "1.".toList).filterMap claimSuggestLine := by decide

/-- The per-line rule of claim C8 as amended: the numeric rule
additionally requires the trimmed line to be longer than two characters,
and the bullet markers are `-`, `*` and the source's three-character
sequence `â€¢`, of which only the first character is stripped. -/
def amendedSuggestLine (line : Str) : Option Str :=
  let l := pyStrip line
  if l.length = 0 then none
  else if 3 ≤ l.length ∧ (l.headD ' ').isDigit ∧ (l.drop 1).headD ' ' = '.' then
    some (pyStrip (l.drop 2))
  else if "â€¢".toList.isPrefixOf l ∨ "-".toList.isPrefixOf l ∨
      "*".toList.isPrefixOf l then
    some (pyStrip (l.drop 1))
  else if ∃ kw ∈ AIService.suggestion_keywords, hasSub kw (pyLower l) = true then
    some l
  else none

theorem suggestLine_eq_amended (line : Str) :
    AIService.suggestLine line = amendedSuggestLine line := by
  unfold AIService.suggestLine amendedSuggestLine AIService.bulletMarkers
  simp only [List.isEmpty_iff_length_eq_zero, List.any_cons, List.any_nil,
    Bool.or_false, Bool.or_eq_true, Bool.and_eq_true, decide_eq_true_eq,
    List.any_eq_true]
  rcases h : pyStrip line with _ | ⟨c, cs⟩ <;>
    simp_all [Nat.lt_iff_add_one_le, and_assoc, and_left_comm, and_comm]

theorem extract_suggestions_foldl (lines : List Str) (acc : List Str) :
    lines.foldl
      (fun acc line =>
        match AIService.suggestLine line with
        | some s => acc ++ [s]
        | none => acc) acc =
    acc ++ lines.filterMap AIService.suggestLine := by
  induction lines generalizing acc with
  | nil => simp
  | cons line rest ih =>
    cases h : AIService.suggestLine line <;>
      simp [List.filterMap_cons, h, ih]

/-- Claim C8 as amended: suggestion extraction records, per non-blank
trimmed line, exactly one suggestion by the first applicable of the
three rules (numeric list with length over two, bullet marker from the
source's marker set with one character stripped, keyword line recorded
as the trimmed line), in that precedence order. -/
theorem extract_suggestions_amended_rules (content : Str) :
    AIService.extract_suggestions content =
      (splitLines content).filterMap amendedSuggestLine := by
  rw [AIService.extract_suggestions, extract_suggestions_foldl]
  simp only [List.nil_append]
  exact List.filterMap_congr (fun l _ => suggestLine_eq_amended l)

/-- State of the reference fence scan for the snippet extraction:
`(blocks, current lines, current language, in_code_block)`. -/
abbrev BlockState := List (List Str × Option Str) × List Str × Option Str × Bool

/-- The fence scan of `_extract_code_snippets`, but recording every
fenced region on its closing fence — including regions with no
accumulated lines. -/
def blockStep (st : BlockState) (line : Str) : BlockState :=
  let (bs, cur, lang, inB) := st
  if fenceMark.isPrefixOf line then
    if inB then (bs ++ [(cur, lang)], [], none, false)
    else
      let spec := pyStrip (line.drop 3)
      (bs, cur, if spec.isEmpty then lang else some (pyLower spec), true)
  else if inB then (bs, cur ++ [line], lang, inB)
  else st

/-- Rendering of a fenced region as the source renders an emitted
snippet. -/
def renderBlock (b : List Str × Option Str) : Snippet :=
  ⟨joinLines b.1, b.2.getD "text".toList⟩

/-- Keep only fenced regions with at least one accumulated line and
render them. -/
def renderBlocks (bs : List (List Str × Option Str)) : List Snippet :=
  (bs.filter (fun b => !b.1.isEmpty)).map renderBlock

/-- The final flush of the source scan: emit the pending lines when any
were accumulated. -/
def finishSnip (st : AIService.SnipState) : List Snippet :=
  if st.2.1.isEmpty then st.1
  else st.1 ++ [⟨joinLines st.2.1, st.2.2.1.getD "text".toList⟩]

/-- The final flush of the reference scan: emit the pending region when
a fence is still open. -/
def finishBlocks (st : BlockState) : List (List Str × Option Str) :=
  if st.2.2.2 then st.1 ++ [(st.2.1, st.2.2.1)] else st.1

/-- Every fenced region of the reply, with its accumulated lines and
language tag, including empty regions. -/
def blocksOf (content : Str) : List (List Str × Option Str) :=
  finishBlocks ((splitLines content).foldl blockStep ([], [], none, false))

theorem renderBlocks_append_single (bs : List (List Str × Option Str))
    (b : List Str × Option Str) :
    renderBlocks (bs ++ [b]) =
      renderBlocks bs ++ (if b.1.isEmpty then [] else [renderBlock b]) := by
  cases h : b.1.isEmpty <;>
    simp [renderBlocks, List.filter_append, List.filter_cons, h]

theorem snipFold_eq_blockFold (lines : List Str) :
    ∀ (bs : List (List Str × Option Str)) (cur : List Str)
      (lang : Option Str) (inB : Bool), (inB = false → cur = []) →
      finishSnip
        (lines.foldl AIService.snipStep (renderBlocks bs, cur, lang, inB)) =
      renderBlocks
        (finishBlocks (lines.foldl blockStep (bs, cur, lang, inB))) := by
  induction lines with
  | nil =>
    intro bs cur lang inB hinv
    cases inB with
    | false =>
      simp [finishSnip, finishBlocks, hinv rfl]
    | true =>
      simp only [List.foldl_nil, finishSnip, finishBlocks, if_pos]
      rw [renderBlocks_append_single]
      cases h : cur.isEmpty <;> simp_all [renderBlock]
  | cons line rest ih =>
    intro bs cur lang inB hinv
    simp only [List.foldl_cons]
    by_cases hf : fenceMark <+: line
    · cases inB with
      | true =>
        have hs : AIService.snipStep (renderBlocks bs, cur, lang, true) line =
            (renderBlocks (bs ++ [(cur, lang)]), [], none, false) := by
          rw [renderBlocks_append_single]
          cases h : cur.isEmpty <;>
            simp [AIService.snipStep, renderBlock, hf, h]
        have hb : blockStep (bs, cur, lang, true) line =
            (bs ++ [(cur, lang)], [], none, false) := by
          simp [blockStep, hf]
        rw [hs, hb]
        exact ih (bs ++ [(cur, lang)]) [] none false (fun _ => rfl)
      | false =>
        have hs : AIService.snipStep (renderBlocks bs, cur, lang, false) line =
            (renderBlocks bs, cur,
              (if (pyStrip (line.drop 3)).isEmpty then lang
               else some (pyLower (pyStrip (line.drop 3)))), true) := by
          simp [AIService.snipStep, hf]
        have hb : blockStep (bs, cur, lang, false) line =
            (bs, cur,
              (if (pyStrip (line.drop 3)).isEmpty then lang
               else some (pyLower (pyStrip (line.drop 3)))), true) := by
          simp [blockStep, hf]
        rw [hs, hb]
        exact ih bs cur _ true (by simp)
    · cases inB with
      | true =>
        have hs : AIService.snipStep (renderBlocks bs, cur, lang, true) line =
            (renderBlocks bs, cur ++ [line], lang, true) := by
          simp [AIService.snipStep, hf]
        have hb : blockStep (bs, cur, lang, true) line =
            (bs, cur ++ [line], lang, true) := by
          simp [blockStep, hf]
        rw [hs, hb]
        exact ih bs (cur ++ [line]) lang true (by simp)
      | false =>
        have hs : AIService.snipStep (renderBlocks bs, cur, lang, false) line =
            (renderBlocks bs, cur, lang, false) := by
          simp [AIService.snipStep, hf]
        have hb : blockStep (bs, cur, lang, false) line =
            (bs, cur, lang, false) := by
          simp [blockStep, hf]
        rw [hs, hb]
        exact ih bs cur lang false hinv

/-- Claim C10: snippet extraction emits a snippet only for fenced
regions with at least one accumulated line; in particular an opening
fence immediately followed by a closing fence yields no snippet at all,
and an unterminated opening fence with no lines after it yields
nothing. -/
theorem code_snippets_require_accumulated_lines :
    (∀ content : Str,
      AIService.extract_code_snippets content = renderBlocks (blocksOf content)) ∧
    AIService.extract_code_snippets "```\n```".toList = [] ∧
    AIService.extract_code_snippets "hello\n```".toList = [] := by
  refine ⟨fun content => ?_, by decide, by decide⟩
  have h := snipFold_eq_blockFold (splitLines content) [] [] none false
    (fun _ => rfl)
  simpa [blocksOf] using h

end CodeGPT
